import Mathlib

/-!
Shallow embedding of the command-lifecycle orchestrator in `src/bin/yoke.js`
of the yoke-cli repository.  JavaScript values relevant to the orchestrator
are modelled by `JValue`; objects are association lists in insertion order.
The two resolvers (`loadCredentials`, `loadAerobaticNpmConfig`), the
`async.parallel` fail-fast join, the result-merge step, the error-reporting
branches and the process-lifecycle decisions of `commandAction` are
translated directly from the source.
-/

/-- JavaScript values as used by yoke.js: primitives, objects (insertion
ordered association lists), arrays, opaque function values, and Error
instances (carrying an optional `stack` string and a `message`). -/
inductive JValue where
  | null : JValue
  | undefined : JValue
  | bool : Bool → JValue
  | num : Int → JValue
  | str : String → JValue
  | obj : List (String × JValue) → JValue
  | arr : List JValue → JValue
  | func : JValue
  | error : Option String → String → JValue

/-- A JavaScript object body: fields in insertion order. -/
abbrev JObj := List (String × JValue)

/-- JavaScript truthiness: `null`, `undefined`, `false`, `0` and `""` are
falsy; every object, array, function and Error instance is truthy. -/
def truthy : JValue → Bool
  | JValue.null => false
  | JValue.undefined => false
  | JValue.bool b => b
  | JValue.num n => n != 0
  | JValue.str s => s != ("")
  | JValue.obj _ => true
  | JValue.arr _ => true
  | JValue.func => true
  | JValue.error _ _ => true

/-- `_.isFunction`. -/
def isFunction : JValue → Bool
  | JValue.func => true
  | _ => false

/-- `err instanceof Error`. -/
def isError : JValue → Bool
  | JValue.error _ _ => true
  | _ => false

/-- `_.isString`. -/
def isStr : JValue → Bool
  | JValue.str _ => true
  | _ => false

/-- lodash `_.isEmpty`: `null`/`undefined`, numbers, booleans and functions
are empty; strings, objects and arrays are empty when they have no
elements / own enumerable fields. -/
def isEmptyVal : JValue → Bool
  | JValue.null => true
  | JValue.undefined => true
  | JValue.bool _ => true
  | JValue.num _ => true
  | JValue.str s => s.isEmpty
  | JValue.obj fs => fs.isEmpty
  | JValue.arr es => es.isEmpty
  | JValue.func => true
  | JValue.error _ _ => true

/-- First binding of a key in an object body (JS objects have no duplicate
keys, so first = only). -/
def lookupField : List (String × JValue) → String → Option JValue
  | [], _ => none
  | (k', v) :: rest, k => if k' = k then some v else lookupField rest k

/-- JavaScript property read `v[k]` on a receiver that does not throw:
`undefined` on a missing field or a non-object (but non-null,
non-undefined) receiver.  The throwing read on `null`/`undefined` is
modelled separately by `getFieldThrow`. -/
def getField : JValue → String → JValue
  | JValue.obj fs, k =>
      match lookupField fs k with
      | some v => v
      | none => JValue.undefined
  | _, _ => JValue.undefined

/-- JavaScript property write on an object body: replace the existing
binding in place, else append a new one (insertion order preserved). -/
def objSet : List (String × JValue) → String → JValue → List (String × JValue)
  | [], k, v => [(k, v)]
  | (k', w) :: rest, k, v =>
      if k' = k then (k, v) :: rest else (k', w) :: objSet rest k v

/-- lodash `_.extend(target, src)` between object bodies: assign each field
of `src` onto `target`, left to right. -/
def extendObj (target : JObj) (src : JObj) : JObj :=
  src.foldl (fun t p => objSet t p.1 p.2) target

/-- Property assignment `v[k] = w` at the `JValue` level; silently a no-op
on non-object receivers (non-strict JS primitive assignment). -/
def setFieldValue : JValue → String → JValue → JValue
  | JValue.obj fs, k, v => JValue.obj (objSet fs k v)
  | other, _, _ => other

/-- `_.extend` whose target is a `JValue` (no-op on non-objects). -/
def extendValue : JValue → JObj → JValue
  | JValue.obj fs, src => JValue.obj (extendObj fs src)
  | other, _ => other

/-- JavaScript `a || b`. -/
def jsOr (a b : JValue) : JValue :=
  if truthy a then a else b

/-- Own fields of a value (`[]` for non-objects). -/
def objFields : JValue → JObj
  | JValue.obj fs => fs
  | _ => []

/-! ## Resolver messages (verbatim from yoke.js) -/

/-- Credential Resolver: file absent (`loadCredentials`, line 162). -/
def noCredFileMsg : String := "No .aerobatic file exists. First run \x27yoke login\x27"

/-- Credential Resolver: file unparseable (`loadCredentials`, line 169). -/
def credParseMsg : String :=
  "Could not parse .aerobatic file JSON. Try re-running \x27yoke login\x27"

/-- Credential Resolver: missing/empty field (`loadCredentials`, line 173). -/
def credMissingMsg : String :=
  "Missing information in .aerobatic file. Try re-running \x27yoke login\x27"

/-- Project Config Resolver: manifest absent (`loadAerobaticNpmConfig`, line 185). -/
def pkgAbsentMsg : String :=
  "File package.json does not exist. Run \x27npm init\x27 to create it."

/-- Project Config Resolver: manifest unparseable (line 195). -/
def pkgInvalidMsg : String := "File package.json is not valid JSON"

/-- Project Config Resolver: `_aerobatic` section missing (line 199). -/
def missingAerobaticMsg : String :=
  "Missing _aerobatic section in package.json file. Try re-running the command \x27yoke app:bind\x27."

/-- Project Config Resolver: no appId resolvable (line 204). -/
def missingAppIdMsg : String :=
  "Missing appId in _aerobatic section of package.json. Try re-running the command \x27yoke bind-app\x27."

/-- Unrecognized command message (line 74). -/
def notValidCommandMsg : String := "Not a valid command. Type \x27yoke -h\x27 for help."

/-! ## Credential Resolver (`loadCredentials`, yoke.js lines 155-178) -/

/-- Observable state of the `.aerobatic` credentials file: `fs.exists` plus
the outcome of `JSON.parse` on its contents. -/
inductive CredFileSource where
  | absent : CredFileSource
  | notJson : CredFileSource
  | json : JValue → CredFileSource

/-- `loadCredentials`, callback view: absent file, unparseable file, and
missing/empty `userId` or `secretKey` each fail with their own message;
otherwise the parsed value is the result.  This view identifies the
property reads with `getField`, which is only faithful for receivers on
which a JavaScript property read does not throw; the full behaviour,
including the uncaught TypeError on a file parsing to `null`, is
`loadCredentialsRun` below. -/
def loadCredentials : CredFileSource → Except JValue JValue
  | CredFileSource.absent => Except.error (JValue.str noCredFileMsg)
  | CredFileSource.notJson => Except.error (JValue.str credParseMsg)
  | CredFileSource.json j =>
      if isEmptyVal (getField j ("userId")) || isEmptyVal (getField j ("secretKey")) then
        Except.error (JValue.str credMissingMsg)
      else
        Except.ok j

/-- JavaScript property read `v[k]` with its failure mode: reading any
property of `null` or `undefined` throws a TypeError (modelled as the name
of the key being read); every other receiver yields `getField v k`. -/
def getFieldThrow : JValue → String → Except String JValue
  | JValue.null, k => Except.error k
  | JValue.undefined, k => Except.error k
  | v, k => Except.ok (getField v k)

/-- How a resolver run ends: either its completion callback is invoked
with a result, or an exception escapes (uncaught, crashing the process);
`crash k` records the TypeError thrown while reading property `k`. -/
inductive ResolverOutcome where
  | callback : Except JValue JValue → ResolverOutcome
  | crash : String → ResolverOutcome

/-- `loadCredentials` with its crash path: the reads `credentials.userId`
and `credentials.secretKey` at yoke.js line 172 are outside the
try/catch around `JSON.parse`, so a file whose contents parse to `null`
throws an uncaught TypeError there instead of invoking the callback.
(Both reads share the receiver `j`, so the short-circuit in
`_.isEmpty(..) || _.isEmpty(..)` cannot avoid the throw.) -/
def loadCredentialsRun : CredFileSource → ResolverOutcome
  | CredFileSource.absent =>
      ResolverOutcome.callback (Except.error (JValue.str noCredFileMsg))
  | CredFileSource.notJson =>
      ResolverOutcome.callback (Except.error (JValue.str credParseMsg))
  | CredFileSource.json j =>
      match getFieldThrow j ("userId"), getFieldThrow j ("secretKey") with
      | Except.error k, _ => ResolverOutcome.crash k
      | Except.ok _, Except.error k => ResolverOutcome.crash k
      | Except.ok u, Except.ok s =>
          if isEmptyVal u || isEmptyVal s then
            ResolverOutcome.callback (Except.error (JValue.str credMissingMsg))
          else
            ResolverOutcome.callback (Except.ok j)

/-! ## Project Config Resolver (`loadAerobaticNpmConfig`, yoke.js lines 180-219) -/

/-- Observable state of the project's `package.json`: `fs.exists`, a
possible `fs.readFile` failure (an Error value passed through), and the
outcome of `JSON.parse`. -/
inductive PackageJsonSource where
  | absent : PackageJsonSource
  | readFail : JValue → PackageJsonSource
  | notJson : PackageJsonSource
  | json : JValue → PackageJsonSource

/-- `loadAerobaticNpmConfig`: checks existence, read success, JSON parse,
presence of the `_aerobatic` section, and that an appId is available from
the section or from the `program.appId` flag; an explicit flag overwrites
the section's appId, and the resolved config is extended with
`appVersion := json.version` and `npmScripts := json.scripts || \x7b\x7d`.
Like the callback view of the credentials resolver, this identifies the
`json._aerobatic` read with `getField`, which for a manifest parsing to
JSON `null` collapses the uncaught-TypeError crash at that read into the
missing-section failure; the theorems about this resolver therefore
restrict to manifests that parse to objects. -/
def loadAerobaticNpmConfig (programAppId : JValue) : PackageJsonSource → Except JValue JValue
  | PackageJsonSource.absent => Except.error (JValue.str pkgAbsentMsg)
  | PackageJsonSource.readFail e => Except.error e
  | PackageJsonSource.notJson => Except.error (JValue.str pkgInvalidMsg)
  | PackageJsonSource.json j =>
      if !truthy (getField j ("_aerobatic")) then
        Except.error (JValue.str missingAerobaticMsg)
      else
        if !truthy programAppId && !truthy (getField (getField j ("_aerobatic")) ("appId")) then
          Except.error (JValue.str missingAppIdMsg)
        else
          Except.ok (extendValue
            (if truthy programAppId then
              setFieldValue (getField j ("_aerobatic")) ("appId") programAppId
            else getField j ("_aerobatic"))
            [(("appVersion"), getField j ("version")),
             (("npmScripts"), jsOr (getField j ("scripts")) (JValue.obj []))])

/-! ## Initialization Task Runner (`commandAction`, yoke.js lines 93-105) -/

/-- Per-command options passed to `commandAction`, after `_.defaults` with
`requireCredentials := true` and `loadNpmConfig := true`. -/
structure CmdOptions where
  requireCredentials : Bool
  loadNpmConfig : Bool
  simulator : Bool
deriving DecidableEq

/-- Options of the `login` command (line 34):
`requireCredentials: false, loadNpmConfig: false`. -/
def loginOptions : CmdOptions :=
  { requireCredentials := false, loadNpmConfig := false, simulator := false }

/-- Declared init task names, in declaration order: `credentials` when
credentials are required and not both `program.userId` and
`program.secretKey` are (truthily) set; `config` when `loadNpmConfig`. -/
def initTasksFor (opts : CmdOptions) (prog : JObj) : List String :=
  (if opts.requireCredentials
      && !(truthy (getField (JValue.obj prog) ("userId"))
           && truthy (getField (JValue.obj prog) ("secretKey"))) then
    [("credentials")]
  else []) ++
  (if opts.loadNpmConfig then [("config")] else [])

/-- `async.parallel` over tasks listed in completion order: the first task
that fails determines the outcome (fail-fast join); on all-success the
results are keyed by task name. The empty task set succeeds with the empty
result. -/
def asyncParallel : List (String × Except JValue JValue) → Except JValue (List (String × JValue))
  | [] => Except.ok []
  | (_, Except.error e) :: _ => Except.error e
  | (name, Except.ok v) :: rest =>
      match asyncParallel rest with
      | Except.error e => Except.error e
      | Except.ok m => Except.ok ((name, v) :: m)


/-! ## Merge step (`commandAction`, yoke.js lines 115-118) -/

/-- The merge of `async.parallel` results into `program`:
`_.each(results, function(value, key) \x7b _.extend(program, value); \x7d)` —
each result value's own fields are assigned onto `program`; the task key is
not used.  (Both resolvers resolve with object values; `objFields` is `[]`
on any other value, matching `_.extend` from a field-less source.) -/
def mergeResults (prog : JObj) (results : List (String × JValue)) : JObj :=
  results.foldl (fun p kv => extendObj p (objFields kv.2)) prog

/-- Concatenated fields of all result values, in completion order. -/
def flattenResults (results : List (String × JValue)) : JObj :=
  results.foldr (fun kv acc => objFields kv.2 ++ acc) []

/-! ## Effects, error reporting and process lifecycle -/

/-- Observable actions of the orchestrator: error log lines, environment
variables set by `setProgramDefaults`, and `process.exit(code)` (a bare
`process.exit()` is code `0`). -/
inductive Effect where
  | logError : String → Effect
  | setEnv : String → String → Effect
  | exit : Nat → Effect
deriving DecidableEq

/-- `err.toString()` for an Error instance. -/
def errorToString (msg : String) : String :=
  if msg.isEmpty then ("Error") else ("Error: ") ++ msg

/-- `err.stack || err.toString()`. -/
def errStackOrString (st : Option String) (msg : String) : String :=
  match st with
  | some s => if s.isEmpty then errorToString msg else s
  | none => errorToString msg

/-- The error-reporting branch shared by both callbacks (yoke.js lines
107-110 and 124-127): Error instances log `err.stack || err.toString()`,
strings log the string itself, any other value logs nothing. -/
def reportErrorLine : JValue → Option String
  | JValue.error st msg => some (errStackOrString st msg)
  | JValue.str s => some s
  | _ => none

/-- Effects of the failure path: the reported line (when any) followed by
`process.exit()`. -/
def errorEffects (e : JValue) : List Effect :=
  match reportErrorLine e with
  | some s => [Effect.logError s, Effect.exit 0]
  | none => [Effect.exit 0]

/-- Process-lifecycle states of `commandAction`'s completion handling. -/
inductive LState where
  | invoking : LState
  | keptAlive : JValue → LState
  | exited : LState

/-- The command-completion callback (yoke.js lines 122-142): a truthy error
is reported and the process exits; with no error, a non-function second
argument exits immediately, while a function keeps the process alive with
the cleanup handle registered on the `exit` event. -/
def completionHandler (err onKill : JValue) : List Effect × LState :=
  if truthy err then (errorEffects err, LState.exited)
  else if isFunction onKill then ([], LState.keptAlive onKill)
  else ([Effect.exit 0], LState.exited)

/-- `setProgramDefaults` (yoke.js lines 147-153): set `YOKE_DEBUG` when the
debug flag is truthy and `AEROBATIC_ENV` when the dev flag is truthy. -/
def setEnvEffects (prog : JObj) : List Effect :=
  (if truthy (getField (JValue.obj prog) ("debug")) then
    [Effect.setEnv ("YOKE_DEBUG") ("1")]
  else []) ++
  (if truthy (getField (JValue.obj prog) ("dev")) then
    [Effect.setEnv ("AEROBATIC_ENV") ("dev")]
  else [])

/-- Effects of the `*` catch-all command (yoke.js lines 71-76): log the
usage error and `process.exit()`. -/
def unknownCommandEffects : List Effect :=
  [Effect.logError notValidCommandMsg, Effect.exit 0]

/-! ## Full invocation (`commandAction`, yoke.js lines 85-145) -/

/-- External inputs of one invocation: the two files' observable states and
which declared task completes first (the two resolvers run concurrently
with no ordering guarantee). -/
structure Env where
  credFile : CredFileSource
  pkgFile : PackageJsonSource
  credFirst : Bool

/-- Outcome of a named init task against the environment. -/
def taskOutcome (prog : JObj) (env : Env) : String → Except JValue JValue
  | "credentials" => loadCredentials env.credFile
  | "config" => loadAerobaticNpmConfig (getField (JValue.obj prog) ("appId")) env.pkgFile
  | _ => Except.ok JValue.undefined

/-- Declared tasks rearranged into completion order. -/
def orderedTasks (names : List String) (credFirst : Bool) : List String :=
  if credFirst then names else names.reverse

/-- The Initialization Task Runner: the declared tasks under
`async.parallel`, observed in completion order. -/
def runInit (opts : CmdOptions) (prog : JObj) (env : Env) :
    Except JValue (List (String × JValue)) :=
  asyncParallel ((orderedTasks (initTasksFor opts prog) env.credFirst).map
    (fun n => (n, taskOutcome prog env n)))

/-- Result of one invocation: the emitted effects, the context handed to
the command implementation (when dispatch happened), and the final
lifecycle state. -/
structure RunResult where
  effects : List Effect
  ctx : Option JObj
  final : LState

/-- One full run of `commandAction`'s returned action: run the declared
init tasks, on failure report and exit; on success merge the results into
`program`, apply `setProgramDefaults`, dispatch to the command
implementation and handle its completion callback. -/
def commandAction (opts : CmdOptions) (prog : JObj) (env : Env)
    (impl : JObj → JValue × JValue) : RunResult :=
  match runInit opts prog env with
  | Except.error e =>
      { effects := errorEffects e, ctx := none, final := LState.exited }
  | Except.ok results =>
      let prog2 := mergeResults prog results
      let r := impl prog2
      let h := completionHandler r.1 r.2
      { effects := setEnvEffects prog2 ++ h.1, ctx := some prog2, final := h.2 }

/-! ## Keep-alive lifecycle (yoke.js lines 132-141) -/

/-- Events after dispatch: the completion callback firing, and the process
`exit` event (reached from an external interrupt or natural exit). -/
inductive LEvent where
  | completion : JValue → JValue → LEvent
  | exitEvent : LEvent

/-- Lifecycle step with a count of cleanup-handle invocations: the
completion callback decides the next state; in the kept-alive state the
registered `exit` listener invokes the cleanup handle once; an exited
process absorbs everything. -/
def stepLifecycle : LState × Nat → LEvent → LState × Nat
  | (LState.invoking, n), LEvent.completion err onKill =>
      ((completionHandler err onKill).2, n)
  | (LState.keptAlive _, n), LEvent.exitEvent => (LState.exited, n + 1)
  | (LState.invoking, n), LEvent.exitEvent => (LState.exited, n)
  | (s, n), _ => (s, n)

/-- Run the lifecycle from the dispatched state. -/
def runLifecycle (evs : List LEvent) : LState × Nat :=
  evs.foldl stepLifecycle (LState.invoking, 0)

/-! ## Helper lemmas -/

theorem lookupField_objSet_self (fs : JObj) (k : String) (v : JValue) :
    lookupField (objSet fs k v) k = some v := by
  induction fs with
  | nil => simp [objSet, lookupField]
  | cons hd tl ih =>
      obtain ⟨k', w⟩ := hd
      by_cases h : k' = k
      · simp [objSet, h, lookupField]
      · simp [objSet, h, lookupField, ih]

theorem lookupField_objSet_ne (fs : JObj) (k k' : String) (v : JValue)
    (h : k' ≠ k) : lookupField (objSet fs k v) k' = lookupField fs k' := by
  induction fs with
  | nil => simp [objSet, lookupField, Ne.symm h]
  | cons hd tl ih =>
      obtain ⟨k₀, w⟩ := hd
      by_cases h0 : k₀ = k
      · subst h0
        simp [objSet, lookupField, Ne.symm h]
      · by_cases h1 : k₀ = k'
        · simp [objSet, h0, lookupField, h1, h]
        · simp [objSet, h0, lookupField, h1, ih]

theorem getField_objSet_self (fs : JObj) (k : String) (v : JValue) :
    getField (JValue.obj (objSet fs k v)) k = v := by
  simp [getField, lookupField_objSet_self]

theorem getField_objSet_ne (fs : JObj) (k k' : String) (v : JValue)
    (h : k' ≠ k) : getField (JValue.obj (objSet fs k v)) k' = getField (JValue.obj fs) k' := by
  simp [getField, lookupField_objSet_ne fs k k' v h]

theorem extendObj_append (t : JObj) (a b : JObj) :
    extendObj t (a ++ b) = extendObj (extendObj t a) b := by
  simp [extendObj, List.foldl_append]

theorem exit_mem_errorEffects {c : Nat} {e : JValue}
    (h : Effect.exit c ∈ errorEffects e) : c = 0 := by
  unfold errorEffects at h
  cases hr : reportErrorLine e <;> rw [hr] at h <;> simp_all

theorem exit_not_mem_setEnvEffects (c : Nat) (p : JObj) :
    Effect.exit c ∉ setEnvEffects p := by
  unfold setEnvEffects
  cases truthy (getField (JValue.obj p) ("debug")) <;>
    cases truthy (getField (JValue.obj p) ("dev")) <;> simp

theorem exit_mem_completionHandler {c : Nat} {a b : JValue}
    (h : Effect.exit c ∈ (completionHandler a b).1) : c = 0 := by
  unfold completionHandler at h
  by_cases h1 : truthy a
  · rw [if_pos h1] at h
    exact exit_mem_errorEffects h
  · rw [if_neg h1] at h
    by_cases h2 : isFunction b <;> simp_all

theorem foldl_stepLifecycle_exited (evs : List LEvent) (c : Nat) :
    evs.foldl stepLifecycle (LState.exited, c) = (LState.exited, c) := by
  induction evs with
  | nil => rfl
  | cons e tl ih =>
      cases e <;> simpa [stepLifecycle] using ih

/-- Predicate picking out error log lines among effects. -/
def isLogErrorEff : Effect → Bool
  | Effect.logError _ => true
  | _ => false

theorem loadCredentialsRun_callback (j : JValue)
    (hn : j ≠ JValue.null) (hu : j ≠ JValue.undefined) :
    loadCredentialsRun (CredFileSource.json j)
      = ResolverOutcome.callback (loadCredentials (CredFileSource.json j)) := by
  cases j <;> simp_all [loadCredentialsRun, loadCredentials, getFieldThrow, apply_ite]

theorem loadConfig_with_section (jf sf : List (String × JValue)) (cmdAppId : JValue)
    (hsec : getField (JValue.obj jf) ("_aerobatic") = JValue.obj sf) :
    loadAerobaticNpmConfig cmdAppId (PackageJsonSource.json (JValue.obj jf))
      = if !truthy cmdAppId && !truthy (getField (JValue.obj sf) ("appId")) then
          Except.error (JValue.str missingAppIdMsg)
        else
          Except.ok (extendValue
            (if truthy cmdAppId then setFieldValue (JValue.obj sf) ("appId") cmdAppId
             else JValue.obj sf)
            [(("appVersion"), getField (JValue.obj jf) ("version")),
             (("npmScripts"), jsOr (getField (JValue.obj jf) ("scripts")) (JValue.obj []))]) := by
  show (if !truthy (getField (JValue.obj jf) ("_aerobatic")) then
          Except.error (JValue.str missingAerobaticMsg)
        else if !truthy cmdAppId
            && !truthy (getField (getField (JValue.obj jf) ("_aerobatic")) ("appId")) then
          Except.error (JValue.str missingAppIdMsg)
        else
          Except.ok (extendValue
            (if truthy cmdAppId then
              setFieldValue (getField (JValue.obj jf) ("_aerobatic")) ("appId") cmdAppId
            else getField (JValue.obj jf) ("_aerobatic"))
            [(("appVersion"), getField (JValue.obj jf) ("version")),
             (("npmScripts"), jsOr (getField (JValue.obj jf) ("scripts")) (JValue.obj []))]))
      = _
  rw [hsec]
  rfl

/-! ## Claims -/

/-- C1 (counterexample): in a run of the Initialization Task Runner where
the single declared task `credentials` succeeds with
`\x7b userId: "u", secretKey: "s" \x7d`, the Context handed to the command
implementation has `userId` and `secretKey` at top level (flattened) and
its `credentials` field is `undefined`, not the task's resolved value. -/
theorem yoke_merge_not_keyed_cex :
    (commandAction { requireCredentials := true, loadNpmConfig := false, simulator := false }
        []
        { credFile := CredFileSource.json
            (JValue.obj [(("userId"), JValue.str ("u")), (("secretKey"), JValue.str ("s"))]),
          pkgFile := PackageJsonSource.absent, credFirst := true }
        (fun _ => (JValue.null, JValue.undefined))).ctx
      = some [(("userId"), JValue.str ("u")), (("secretKey"), JValue.str ("s"))]
    ∧ getField (JValue.obj [(("userId"), JValue.str ("u")), (("secretKey"), JValue.str ("s"))])
        ("credentials") = JValue.undefined
    ∧ JValue.undefined
        ≠ JValue.obj [(("userId"), JValue.str ("u")), (("secretKey"), JValue.str ("s"))] := by
  refine ⟨rfl, rfl, ?_⟩
  intro h
  exact JValue.noConfusion h

/-- C1 (amended): the merge into Context is not keyed assignment but a
flattening — `commandAction` extends `program` with the own fields of every
task's result value, in completion order; equivalently, the merge equals a
single `_.extend` of `program` with all result fields concatenated. -/
theorem yoke_merge_flattens (prog : JObj) (results : List (String × JValue)) :
    mergeResults prog results = extendObj prog (flattenResults results) := by
  induction results generalizing prog with
  | nil => rfl
  | cons kv tl ih =>
      have h1 : mergeResults prog (kv :: tl)
          = mergeResults (extendObj prog (objFields kv.2)) tl := rfl
      have h2 : flattenResults (kv :: tl) = objFields kv.2 ++ flattenResults tl := rfl
      rw [h1, ih, h2, extendObj_append]

/-- C2 (counterexample): a command implementation failing with the value
`3` (truthy, neither an Error nor a string) terminates the invocation with
no reported line at all — the effects are just `process.exit()`. -/
theorem yoke_error_reporter_silent_cex :
    truthy (JValue.num 3) = true ∧
    (commandAction loginOptions []
        { credFile := CredFileSource.absent, pkgFile := PackageJsonSource.absent,
          credFirst := true }
        (fun _ => (JValue.num 3, JValue.undefined))).effects = [Effect.exit 0] :=
  ⟨rfl, rfl⟩

/-- C2 (amended): for every truthy failure value delivered to the
completion callback, the process reaches the exit path; an Error value
logs exactly one line (`err.stack || err.toString()`), a string value logs
exactly the string, and every other shape logs nothing before the exit. -/
theorem yoke_error_reporter_shape (err onKill : JValue) (h : truthy err = true) :
    (completionHandler err onKill).2 = LState.exited ∧
    Effect.exit 0 ∈ (completionHandler err onKill).1 ∧
    ((completionHandler err onKill).1.countP isLogErrorEff
        = if isError err || isStr err then 1 else 0) ∧
    (∀ st msg, err = JValue.error st msg →
        (completionHandler err onKill).1
          = [Effect.logError (errStackOrString st msg), Effect.exit 0]) ∧
    (∀ s, err = JValue.str s →
        (completionHandler err onKill).1 = [Effect.logError s, Effect.exit 0]) ∧
    (isError err = false → isStr err = false →
        (completionHandler err onKill).1 = [Effect.exit 0]) := by
  have hc : completionHandler err onKill = (errorEffects err, LState.exited) := by
    simp [completionHandler, h]
  rw [hc]
  cases err <;>
    simp_all [errorEffects, reportErrorLine, isError, isStr, isLogErrorEff, truthy]

/-- C2 witness: the string failure value "boom" reaches the exit path. -/
theorem yoke_error_reporter_shape_witness :
    truthy (JValue.str ("boom")) = true ∧
    (completionHandler (JValue.str ("boom")) JValue.undefined).2 = LState.exited :=
  ⟨rfl, (yoke_error_reporter_shape (JValue.str ("boom")) JValue.undefined rfl).1⟩

/-- C4: after a completion callback with no error and a function-valued
keep-alive handle, the process stays in the kept-alive state with the
cleanup handle not invoked as long as no exit event arrives, and any
number of subsequent exit events invokes the cleanup handle exactly once
while terminating the process. -/
theorem yoke_keepalive_lifecycle (f : JValue) (hf : isFunction f = true) (n : Nat) :
    runLifecycle (LEvent.completion JValue.null f :: List.replicate n LEvent.exitEvent)
      = if n = 0 then (LState.keptAlive f, 0) else (LState.exited, 1) := by
  have hstep : stepLifecycle (LState.invoking, 0) (LEvent.completion JValue.null f)
      = (LState.keptAlive f, 0) := by
    simp [stepLifecycle, completionHandler, truthy, hf]
  cases n with
  | zero => simp [runLifecycle, hstep]
  | succ m =>
      simp only [runLifecycle, List.replicate_succ, List.foldl_cons, hstep]
      have h2 : stepLifecycle (LState.keptAlive f, 0) LEvent.exitEvent
          = (LState.exited, 1) := rfl
      rw [h2, foldl_stepLifecycle_exited]
      simp

/-- C4 witness: a function handle followed by one exit event. -/
theorem yoke_keepalive_lifecycle_witness :
    isFunction JValue.func = true ∧
    runLifecycle [LEvent.completion JValue.null JValue.func, LEvent.exitEvent]
      = (LState.exited, 1) := by
  refine ⟨rfl, ?_⟩
  have h := yoke_keepalive_lifecycle JValue.func rfl 1
  simpa using h

/-- C10: with no error, a non-function second callback argument — truthy or
not — makes the orchestrator exit immediately; only a function value keeps
the process alive. -/
theorem yoke_keepalive_requires_function (err onKill : JValue)
    (h1 : truthy err = false) (h2 : isFunction onKill = false) :
    completionHandler err onKill = ([Effect.exit 0], LState.exited) ∧
    (∀ f, isFunction f = true → completionHandler err f = ([], LState.keptAlive f)) := by
  constructor
  · simp [completionHandler, h1, h2]
  · intro f hf
    simp [completionHandler, h1, hf]

/-- C10 witness: the truthy non-function handle `true` exits immediately. -/
theorem yoke_keepalive_requires_function_witness :
    completionHandler JValue.null (JValue.bool true) = ([Effect.exit 0], LState.exited) :=
  (yoke_keepalive_requires_function JValue.null (JValue.bool true) rfl rfl).1

/-- C3: with the `_aerobatic` section present, an explicitly supplied
(truthy) command-line appId always wins — the resolved config's `appId` is
the command-line value — and the resolver fails with the missing-appId
message exactly when neither the command line nor the section supplies an
appId. -/
theorem yoke_appId_override (jf sf : List (String × JValue)) (cmdAppId : JValue)
    (hsec : getField (JValue.obj jf) ("_aerobatic") = JValue.obj sf) :
    (truthy cmdAppId = true →
      ∃ c, loadAerobaticNpmConfig cmdAppId (PackageJsonSource.json (JValue.obj jf))
          = Except.ok c
        ∧ getField c ("appId") = cmdAppId) ∧
    (loadAerobaticNpmConfig cmdAppId (PackageJsonSource.json (JValue.obj jf))
        = Except.error (JValue.str missingAppIdMsg)
      ↔ (truthy cmdAppId = false
          ∧ truthy (getField (JValue.obj sf) ("appId")) = false)) := by
  have hload : loadAerobaticNpmConfig cmdAppId (PackageJsonSource.json (JValue.obj jf))
      = if !truthy cmdAppId && !truthy (getField (JValue.obj sf) ("appId")) then
          Except.error (JValue.str missingAppIdMsg)
        else
          Except.ok (extendValue
            (if truthy cmdAppId then setFieldValue (JValue.obj sf) ("appId") cmdAppId
             else JValue.obj sf)
            [(("appVersion"), getField (JValue.obj jf) ("version")),
             (("npmScripts"), jsOr (getField (JValue.obj jf) ("scripts")) (JValue.obj []))]) := by
    simp [loadAerobaticNpmConfig, hsec, truthy]
  constructor
  · intro hA
    rw [hload]
    simp only [hA, Bool.not_true, Bool.false_and, Bool.false_eq_true, if_false, if_true]
    refine ⟨_, rfl, ?_⟩
    have e1 : extendValue (setFieldValue (JValue.obj sf) ("appId") cmdAppId)
        [(("appVersion"), getField (JValue.obj jf) ("version")),
         (("npmScripts"), jsOr (getField (JValue.obj jf) ("scripts")) (JValue.obj []))]
        = JValue.obj (objSet (objSet (objSet sf ("appId") cmdAppId)
            ("appVersion") (getField (JValue.obj jf) ("version")))
            ("npmScripts") (jsOr (getField (JValue.obj jf) ("scripts")) (JValue.obj []))) := rfl
    rw [e1]
    rw [getField_objSet_ne _ _ _ _ (by decide), getField_objSet_ne _ _ _ _ (by decide),
      getField_objSet_self]
  · rw [hload]
    cases h1 : truthy cmdAppId <;>
      cases h2 : truthy (getField (JValue.obj sf) ("appId")) <;> simp [h1, h2]

/-- C3 witness: `appId: "X"` in the manifest and `--appId Y` on the command
line resolve to `Y`. -/
theorem yoke_appId_override_witness :
    ∃ c, loadAerobaticNpmConfig (JValue.str ("Y"))
        (PackageJsonSource.json (JValue.obj
          [(("_aerobatic"), JValue.obj [(("appId"), JValue.str ("X"))]),
           (("version"), JValue.str ("1.0.0"))]))
      = Except.ok c ∧ getField c ("appId") = JValue.str ("Y") :=
  (yoke_appId_override
    [(("_aerobatic"), JValue.obj [(("appId"), JValue.str ("X"))]),
     (("version"), JValue.str ("1.0.0"))]
    [(("appId"), JValue.str ("X"))] (JValue.str ("Y")) rfl).1 rfl

/-- C5: the Initialization Task Runner is a fail-fast join — when every
earlier-completing task succeeds and a task fails, the failure is reported
and the successful outcomes are discarded, whatever completes afterwards;
the empty task set succeeds immediately with the empty result; the `login`
command declares no init tasks and its invocation always dispatches, with
the context unchanged by the (empty) merge. -/
theorem yoke_init_failfast :
    (∀ (pre : List (String × Except JValue JValue)) (name : String) (e : JValue)
        (post : List (String × Except JValue JValue)),
      (∀ t ∈ pre, ∃ v, t.2 = Except.ok v) →
      asyncParallel (pre ++ (name, Except.error e) :: post) = Except.error e) ∧
    asyncParallel [] = Except.ok ([] : List (String × JValue)) ∧
    (∀ prog : JObj, initTasksFor loginOptions prog = []) ∧
    (∀ (prog : JObj) (env : Env) (impl : JObj → JValue × JValue),
      (commandAction loginOptions prog env impl).ctx = some prog) := by
  refine ⟨?_, rfl, fun _ => rfl, ?_⟩
  · intro pre name e post
    induction pre with
    | nil => intro _; rfl
    | cons hd tl ih =>
        intro h
        obtain ⟨nm, out⟩ := hd
        obtain ⟨v, hv⟩ := h (nm, out) (List.mem_cons_self _ _)
        have ih' := ih (fun t ht => h t (List.mem_cons_of_mem _ ht))
        cases out with
        | error e2 => exact Except.noConfusion hv
        | ok v2 => simp [asyncParallel, ih']
  · intro prog env impl
    obtain ⟨cf, pf, b⟩ := env
    cases b <;> rfl

/-- C5 witness: an earlier-completing success is discarded when a later
task fails. -/
theorem yoke_init_failfast_witness :
    asyncParallel [(("credentials"), Except.ok (JValue.obj [])),
        (("config"), Except.error (JValue.str ("boom")))]
      = Except.error (JValue.str ("boom")) := by
  have h := yoke_init_failfast.1 [(("credentials"), Except.ok (JValue.obj []))] ("config")
    (JValue.str ("boom")) []
    (by
      intro t ht
      simp only [List.mem_singleton] at ht
      exact ⟨JValue.obj [], by rw [ht]⟩)
  simpa using h

/-- C6 (counterexample): a credentials file containing the valid JSON text
`null` parses and lacks `userId`, yet the resolver run crashes with an
uncaught TypeError at the `credentials.userId` read — which sits outside
the try/catch at yoke.js line 164-172 — so the callback is never invoked
with the missing-information message. -/
theorem yoke_credentials_null_crash_cex :
    loadCredentialsRun (CredFileSource.json JValue.null) = ResolverOutcome.crash ("userId")
    ∧ loadCredentialsRun (CredFileSource.json JValue.null)
        ≠ ResolverOutcome.callback (Except.error (JValue.str credMissingMsg))
    ∧ getField JValue.null ("userId") = JValue.undefined := by
  refine ⟨rfl, ?_, rfl⟩
  intro h
  exact ResolverOutcome.noConfusion h

/-- C6 (amended): the Credential Resolver's three failure conditions carry
three pairwise distinct messages, and a credentials file that parses to a
non-null (and non-undefined) value but lacks (or has an empty) `userId` or
`secretKey` invokes the callback with the missing-information /
re-run-login message, never the parse-failure one; a file parsing to JSON
`null` instead crashes with an uncaught TypeError at the `userId` read,
emitting no resolver message. -/
theorem yoke_credentials_messages (j : JValue)
    (hn : j ≠ JValue.null) (hu : j ≠ JValue.undefined)
    (h : getField j ("userId") = JValue.undefined ∨ getField j ("userId") = JValue.str ("")
       ∨ getField j ("secretKey") = JValue.undefined
       ∨ getField j ("secretKey") = JValue.str ("")) :
    loadCredentialsRun (CredFileSource.json j)
      = ResolverOutcome.callback (Except.error (JValue.str credMissingMsg)) ∧
    loadCredentialsRun CredFileSource.absent
      = ResolverOutcome.callback (Except.error (JValue.str noCredFileMsg)) ∧
    loadCredentialsRun CredFileSource.notJson
      = ResolverOutcome.callback (Except.error (JValue.str credParseMsg)) ∧
    loadCredentialsRun (CredFileSource.json JValue.null) = ResolverOutcome.crash ("userId") ∧
    credMissingMsg ≠ credParseMsg ∧ credMissingMsg ≠ noCredFileMsg
      ∧ credParseMsg ≠ noCredFileMsg := by
  refine ⟨?_, rfl, rfl, rfl, by decide, by decide, by decide⟩
  have hempty : (isEmptyVal (getField j ("userId"))
      || isEmptyVal (getField j ("secretKey"))) = true := by
    rcases h with h | h | h | h <;> rw [h] <;>
      simp [isEmptyVal, show (("") : String).isEmpty = true from rfl]
  rw [loadCredentialsRun_callback j hn hu]
  simp [loadCredentials, hempty]

/-- C6 witness: a file parsing to an object with only a userId invokes the
callback with the missing-info message. -/
theorem yoke_credentials_messages_witness :
    loadCredentialsRun (CredFileSource.json (JValue.obj [(("userId"), JValue.str ("u"))]))
      = ResolverOutcome.callback (Except.error (JValue.str credMissingMsg)) :=
  (yoke_credentials_messages (JValue.obj [(("userId"), JValue.str ("u"))])
    (fun h => JValue.noConfusion h) (fun h => JValue.noConfusion h)
    (Or.inr (Or.inr (Or.inl rfl)))).1

/-- C7: every `process.exit` on the orchestrator's natural exit path — init
failure, command failure, immediate completion, or the unrecognized-command
handler — carries the default status code `0`. -/
theorem yoke_exit_code_zero (opts : CmdOptions) (prog : JObj) (env : Env)
    (impl : JObj → JValue × JValue) (c : Nat)
    (h : Effect.exit c ∈ (commandAction opts prog env impl).effects
       ∨ Effect.exit c ∈ unknownCommandEffects) : c = 0 := by
  rcases h with h | h
  · cases hr : runInit opts prog env with
    | error e =>
        simp only [commandAction, hr] at h
        exact exit_mem_errorEffects h
    | ok results =>
        simp only [commandAction, hr, List.mem_append] at h
        rcases h with h | h
        · exact absurd h (exit_not_mem_setEnvEffects _ _)
        · exact exit_mem_completionHandler h
  · simp [unknownCommandEffects] at h
    exact h

/-- C7 witness: the unrecognized-command path exits with code 0. -/
theorem yoke_exit_code_zero_witness :
    (0 : Nat) = 0 ∧ Effect.exit 0 ∈ unknownCommandEffects := by
  constructor
  · exact yoke_exit_code_zero loginOptions []
      { credFile := CredFileSource.absent, pkgFile := PackageJsonSource.absent,
        credFirst := true }
      (fun _ => (JValue.null, JValue.undefined)) 0
      (Or.inr (by simp [unknownCommandEffects]))
  · simp [unknownCommandEffects]

/-- C8: every successfully resolved project config carries the manifest's
top-level `version` as `appVersion` and its `scripts` map (defaulted to the
empty object) as `npmScripts`, overwriting whatever the `_aerobatic`
sub-section previously held under those names. -/
theorem yoke_config_enrichment (jf sf : List (String × JValue)) (cmdAppId c : JValue)
    (hsec : getField (JValue.obj jf) ("_aerobatic") = JValue.obj sf)
    (hok : loadAerobaticNpmConfig cmdAppId (PackageJsonSource.json (JValue.obj jf))
        = Except.ok c) :
    getField c ("appVersion") = getField (JValue.obj jf) ("version") ∧
    getField c ("npmScripts")
      = jsOr (getField (JValue.obj jf) ("scripts")) (JValue.obj []) := by
  rw [loadConfig_with_section jf sf cmdAppId hsec] at hok
  cases hA : truthy cmdAppId with
  | true =>
      rw [hA] at hok
      have hc : Except.ok (α := JValue)
          (extendValue (setFieldValue (JValue.obj sf) ("appId") cmdAppId)
            [(("appVersion"), getField (JValue.obj jf) ("version")),
             (("npmScripts"), jsOr (getField (JValue.obj jf) ("scripts")) (JValue.obj []))])
          = Except.ok c := hok
      rw [← Except.ok.inj hc]
      constructor
      · rw [show extendValue (setFieldValue (JValue.obj sf) ("appId") cmdAppId)
            [(("appVersion"), getField (JValue.obj jf) ("version")),
             (("npmScripts"), jsOr (getField (JValue.obj jf) ("scripts")) (JValue.obj []))]
          = JValue.obj (objSet (objSet (objSet sf ("appId") cmdAppId)
              ("appVersion") (getField (JValue.obj jf) ("version")))
              ("npmScripts") (jsOr (getField (JValue.obj jf) ("scripts"))
                (JValue.obj []))) from rfl]
        rw [getField_objSet_ne _ _ _ _ (by decide), getField_objSet_self]
      · rw [show extendValue (setFieldValue (JValue.obj sf) ("appId") cmdAppId)
            [(("appVersion"), getField (JValue.obj jf) ("version")),
             (("npmScripts"), jsOr (getField (JValue.obj jf) ("scripts")) (JValue.obj []))]
          = JValue.obj (objSet (objSet (objSet sf ("appId") cmdAppId)
              ("appVersion") (getField (JValue.obj jf) ("version")))
              ("npmScripts") (jsOr (getField (JValue.obj jf) ("scripts"))
                (JValue.obj []))) from rfl]
        rw [getField_objSet_self]
  | false =>
      rw [hA] at hok
      cases hB : truthy (getField (JValue.obj sf) ("appId")) with
      | false =>
          rw [hB] at hok
          exact Except.noConfusion hok
      | true =>
          rw [hB] at hok
          have hc : Except.ok (α := JValue)
              (extendValue (JValue.obj sf)
                [(("appVersion"), getField (JValue.obj jf) ("version")),
                 (("npmScripts"), jsOr (getField (JValue.obj jf) ("scripts"))
                   (JValue.obj []))])
              = Except.ok c := hok
          rw [← Except.ok.inj hc]
          constructor
          · rw [show extendValue (JValue.obj sf)
                [(("appVersion"), getField (JValue.obj jf) ("version")),
                 (("npmScripts"), jsOr (getField (JValue.obj jf) ("scripts")) (JValue.obj []))]
              = JValue.obj (objSet (objSet sf
                  ("appVersion") (getField (JValue.obj jf) ("version")))
                  ("npmScripts") (jsOr (getField (JValue.obj jf) ("scripts"))
                    (JValue.obj []))) from rfl]
            rw [getField_objSet_ne _ _ _ _ (by decide), getField_objSet_self]
          · rw [show extendValue (JValue.obj sf)
                [(("appVersion"), getField (JValue.obj jf) ("version")),
                 (("npmScripts"), jsOr (getField (JValue.obj jf) ("scripts")) (JValue.obj []))]
              = JValue.obj (objSet (objSet sf
                  ("appVersion") (getField (JValue.obj jf) ("version")))
                  ("npmScripts") (jsOr (getField (JValue.obj jf) ("scripts"))
                    (JValue.obj []))) from rfl]
            rw [getField_objSet_self]

/-- C8 witness: stale `appVersion`/`npmScripts` in the sub-section are
overwritten by the manifest's top-level values. -/
theorem yoke_config_enrichment_witness :
    getField (JValue.obj [(("appId"), JValue.str ("a")),
        (("appVersion"), JValue.str ("2.0.0")),
        (("npmScripts"), JValue.obj [(("build"), JValue.str ("x"))])]) ("appVersion")
      = getField (JValue.obj
          [(("_aerobatic"), JValue.obj [(("appId"), JValue.str ("a")),
              (("appVersion"), JValue.str ("old")), (("npmScripts"), JValue.bool false)]),
           (("version"), JValue.str ("2.0.0")),
           (("scripts"), JValue.obj [(("build"), JValue.str ("x"))])]) ("version") ∧
    getField (JValue.obj [(("appId"), JValue.str ("a")),
        (("appVersion"), JValue.str ("2.0.0")),
        (("npmScripts"), JValue.obj [(("build"), JValue.str ("x"))])]) ("npmScripts")
      = jsOr (getField (JValue.obj
          [(("_aerobatic"), JValue.obj [(("appId"), JValue.str ("a")),
              (("appVersion"), JValue.str ("old")), (("npmScripts"), JValue.bool false)]),
           (("version"), JValue.str ("2.0.0")),
           (("scripts"), JValue.obj [(("build"), JValue.str ("x"))])]) ("scripts"))
          (JValue.obj []) :=
  yoke_config_enrichment
    [(("_aerobatic"), JValue.obj [(("appId"), JValue.str ("a")),
        (("appVersion"), JValue.str ("old")), (("npmScripts"), JValue.bool false)]),
     (("version"), JValue.str ("2.0.0")),
     (("scripts"), JValue.obj [(("build"), JValue.str ("x"))])]
    [(("appId"), JValue.str ("a")), (("appVersion"), JValue.str ("old")),
     (("npmScripts"), JValue.bool false)]
    JValue.undefined
    (JValue.obj [(("appId"), JValue.str ("a")), (("appVersion"), JValue.str ("2.0.0")),
      (("npmScripts"), JValue.obj [(("build"), JValue.str ("x"))])])
    rfl rfl

/-- C9: when a command requires credentials, the `credentials` init task is
declared exactly when not both `userId` and `secretKey` were (truthily)
supplied as flags; whenever both are supplied the `credentials` task — and
with it the Credential Resolver — is never declared. -/
theorem yoke_credentials_task_decl (opts : CmdOptions) (prog : JObj) :
    (opts.requireCredentials = true →
      ((("credentials") ∈ initTasksFor opts prog) ↔
        ¬(truthy (getField (JValue.obj prog) ("userId")) = true
          ∧ truthy (getField (JValue.obj prog) ("secretKey")) = true))) ∧
    ((truthy (getField (JValue.obj prog) ("userId")) = true
        ∧ truthy (getField (JValue.obj prog) ("secretKey")) = true) →
      ("credentials") ∉ initTasksFor opts prog) := by
  obtain ⟨rc, ln, sim⟩ := opts
  cases rc <;> cases ln <;>
    cases hu : truthy (getField (JValue.obj prog) ("userId")) <;>
      cases hk : truthy (getField (JValue.obj prog) ("secretKey")) <;>
        simp [initTasksFor, hu, hk]

/-- C9 witness: with neither flag supplied and credentials required, the
`credentials` task is declared. -/
theorem yoke_credentials_task_decl_witness :
    ("credentials") ∈ initTasksFor
      { requireCredentials := true, loadNpmConfig := true, simulator := false } [] := by
  have h := (yoke_credentials_task_decl
    { requireCredentials := true, loadNpmConfig := true, simulator := false } []).1 rfl
  exact h.mpr (by decide)
